import Mathlib

/-!
Verification development for the crux rule-schema / rule-set / entity
verifier (`verify_data.go`).  The Go functions are embedded shallowly:
Go slices become `List`, Go `map[string]bool` becomes an association list
`List (String × Bool)` read through first-match lookup (a Go map has
unique keys; `reflect.DeepEqual` on maps is key-and-value equality),
Go `map[string]string` becomes `List (String × String)`, the dynamically
typed `any` attribute values become the closed variant `AttrVal`, and a
Go `(bool, error)` result becomes `Except String Unit`.  The process-wide
registries `ruleSchemas` and `ruleSets` are passed explicitly.
-/

namespace Crux

/-- Modelled from the spec: the value-type constants (`typeBool` ..
`typeTS`) are declared outside the excerpted source; section 3 fixes the
vocabulary {bool,int,float,str,enum,ts}. -/
def typeBool : String := "bool"

/-- Value-type name for integers. -/
def typeInt : String := "int"

/-- Value-type name for floats. -/
def typeFloat : String := "float"

/-- Value-type name for strings. -/
def typeStr : String := "str"

/-- Value-type name for enumerations. -/
def typeEnum : String := "enum"

/-- Value-type name for timestamps. -/
def typeTS : String := "ts"

/-- Modelled from the spec: the operator constants are declared outside
the excerpted source; section 2 fixes the six comparison operators. -/
def opEQ : String := "eq"

/-- Operator name: not-equal. -/
def opNE : String := "ne"

/-- Operator name: less-than. -/
def opLT : String := "lt"

/-- Operator name: less-or-equal. -/
def opLE : String := "le"

/-- Operator name: greater-than. -/
def opGT : String := "gt"

/-- Operator name: greater-or-equal. -/
def opGE : String := "ge"

/-- Modelled from the spec: `trueStr` is declared outside the excerpted
source; the spec reads a `done` property as set only when it is set to
true (`done=true`). -/
def trueStr : String := "true"

/-- The distinguished workflow attribute name `step`. -/
def step : String := "step"

/-- The distinguished workflow attribute name `stepfailed`. -/
def stepFailed : String := "stepfailed"

/-- The sentinel step name `START`. -/
def start : String := "START"

/-- The workflow property name `nextstep`. -/
def nextStep : String := "nextstep"

/-- The workflow property name `done`. -/
def done : String := "done"

/-- A dynamically typed literal value (the Go `any`), as the closed
tagged variant over the runtime types the verifier inspects. -/
inductive AttrVal where
  | boolV (b : Bool)
  | intV (n : Int)
  | floatV (bits : Nat)
  | strV (s : String)
deriving DecidableEq, Repr

/-- One attribute declaration of a pattern-schema. -/
structure AttrSchema where
  name : String
  valType : String
  vals : List (String × Bool)
deriving DecidableEq, Repr

/-- The task and property declarations of a schema. -/
structure ActionSchema where
  tasks : List String
  properties : List String
deriving DecidableEq, Repr

/-- A rule schema: class name, pattern-schema, action-schema.  The Go
field `class` is spelled `className` (`class` is reserved in Lean). -/
structure RuleSchema where
  className : String
  patternSchema : List AttrSchema
  actionSchema : ActionSchema
deriving DecidableEq, Repr

/-- One pattern term of a rule. -/
structure RuleTerm where
  attrName : String
  op : String
  attrVal : AttrVal
deriving DecidableEq, Repr

/-- The actions of a rule. -/
structure RuleActions where
  tasks : List String
  properties : List (String × String)
  thenCall : String
  elseCall : String
  willReturn : Bool
  willExit : Bool
deriving DecidableEq, Repr

/-- One rule: pattern terms plus actions. -/
structure Rule where
  rulePattern : List RuleTerm
  ruleActions : RuleActions
deriving DecidableEq, Repr

/-- A rule set bound to a schema class. -/
structure RuleSet where
  className : String
  setName : String
  rules : List Rule
deriving DecidableEq, Repr

/-- A concrete entity checked against its class schema. -/
structure Entity where
  className : String
  attrs : List (String × AttrVal)
deriving DecidableEq, Repr

/-- Lower-case ASCII letter test, for the CruxID grammar. -/
def isLowerAlpha (c : Char) : Bool := ('a' ≤ c) && (c ≤ 'z')

/-- ASCII digit test, for the CruxID grammar. -/
def isDigitCh (c : Char) : Bool := ('0' ≤ c) && (c ≤ '9')

/-- A non-leading CruxID character: lower-case letter, digit or underscore. -/
def isCruxIDChar (c : Char) : Bool := isLowerAlpha c || isDigitCh c || (c == '_')

/-- The identifier grammar of the regular expression
`^[a-z][a-z0-9_]*$` (`cruxIDRegExp` in the source). -/
def isCruxID (s : String) : Bool :=
  match s.data with
  | [] => false
  | c :: cs => isLowerAlpha c && cs.all isCruxIDChar

/-- Membership in the `validTypes` map of the source. -/
def validTypes (t : String) : Bool :=
  t == typeBool || t == typeInt || t == typeFloat || t == typeStr || t == typeEnum || t == typeTS

/-- Membership in the `validOps` map of the source. -/
def validOps (op : String) : Bool :=
  op == opEQ || op == opNE || op == opLT || op == opLE || op == opGT || op == opGE

/-- Go map read with presence information: the first binding of the key. -/
def lookupB (m : List (String × Bool)) (k : String) : Option Bool :=
  (m.find? (fun p => p.1 == k)).map (fun p => p.2)

/-- Go map indexing `m[k]` on a `map[string]bool`: absent keys yield the
zero value `false`. -/
def mapGet (m : List (String × Bool)) (k : String) : Bool :=
  (lookupB m k).getD false

/-- Modelled from the spec: `timeLayout` and Go `time.Parse` are outside
the excerpted source; per section 4.1 a timestamp literal is valid iff it
parses under the fixed layout (`2006-01-02T15:04:05Z`), embedded here as
a digit/separator/calendar-range check of that shape. -/
def numVal2 (a b : Char) : Nat := (a.toNat - '0'.toNat) * 10 + (b.toNat - '0'.toNat)

/-- Day count of a month in the proleptic Gregorian calendar. -/
def daysInMonth (y m : Nat) : Nat :=
  if m == 2 then (if (y % 4 == 0 && y % 100 != 0) || y % 400 == 0 then 29 else 28)
  else if m == 4 || m == 6 || m == 9 || m == 11 then 30
  else 31

/-- Validity of a timestamp literal under the fixed layout
`2006-01-02T15:04:05Z` (see `numVal2` for the provenance note). -/
def isValidTS (s : String) : Bool :=
  match s.data with
  | [y1, y2, y3, y4, h1, mo1, mo2, h2, d1, d2, tc, ho1, ho2, c1, mi1, mi2, c2, se1, se2, zc] =>
    ([y1, y2, y3, y4, mo1, mo2, d1, d2, ho1, ho2, mi1, mi2, se1, se2].all isDigitCh) &&
    (h1 == '-') && (h2 == '-') && (tc == 'T') && (c1 == ':') && (c2 == ':') && (zc == 'Z') &&
    (let y := (numVal2 y1 y2) * 100 + numVal2 y3 y4
     let mo := numVal2 mo1 mo2
     let d := numVal2 d1 d2
     (1 ≤ mo && mo ≤ 12) && (1 ≤ d && d ≤ daysInMonth y mo) &&
     (numVal2 ho1 ho2 ≤ 23) && (numVal2 mi1 mi2 ≤ 59) && (numVal2 se1 se2 ≤ 59))
  | _ => false

/-- `verifyType` of the source: whether the runtime type of `val` is the
one named by `valType`; a timestamp must additionally parse (a non-string
under `ts` yields the empty string, which never parses). -/
def verifyType (val : AttrVal) (valType : String) : Bool :=
  if valType == typeBool then (match val with | .boolV _ => true | _ => false)
  else if valType == typeInt then (match val with | .intV _ => true | _ => false)
  else if valType == typeFloat then (match val with | .floatV _ => true | _ => false)
  else if valType == typeStr || valType == typeEnum then
    (match val with | .strV _ => true | _ => false)
  else if valType == typeTS then (match val with | .strV s => isValidTS s | _ => false)
  else false

/-- `isStringInArray` of the source. -/
def isStringInArray (s : String) (arr : List String) : Bool :=
  arr.any (fun a => a == s)

/-- `getType` of the source: the declared type of the first
pattern-schema attribute with the given name, or the empty string. -/
def getType (rs : RuleSchema) (name : String) : String :=
  match rs.patternSchema.find? (fun a => a.name == name) with
  | some a => a.valType
  | none => ""

/-- `getSchema` of the source, with the global `ruleSchemas` registry
passed explicitly: the first schema whose class matches. -/
def getSchema (ruleSchemas : List RuleSchema) (className : String) : Except String RuleSchema :=
  match ruleSchemas.find? (fun s => s.className == className) with
  | some s => .ok s
  | none => .error ("no schema found for class " ++ className)

/-- The first enum value of an attribute declaration that is neither a
CruxID nor the sentinel `START` (the inner loop of `verifyPatternSchema`;
the Go map iteration order is fixed here as declaration order, which only
selects which offending value is reported). -/
def firstBadEnumVal (vals : List (String × Bool)) : Option String :=
  (vals.map Prod.fst).find? (fun v => !(isCruxID v) && v != start)

/-- The per-attribute early-return checks of `verifyPatternSchema`. -/
def checkAttrSchema (isWF : Bool) (className : String) (a : AttrSchema) : Except String Unit :=
  if !(isCruxID a.name) then
    .error ("attribute name " ++ a.name ++ " is not a valid CruxID")
  else if !(validTypes a.valType) then
    .error (a.valType ++ " is not a valid value-type")
  else if a.valType == typeEnum && a.vals.length == 0 then
    .error ("no valid values for enum " ++ a.name)
  else
    match firstBadEnumVal a.vals with
    | some v => .error ("enum value " ++ v ++ " is not a valid CruxID")
    | none =>
      if isWF && a.name == step && !(mapGet a.vals start) then
        .error ("workflow schema for " ++ className ++ " doesn\x27t allow step=START")
      else .ok ()

/-- The attribute loop of `verifyPatternSchema`, threading the
`stepFound` and `stepFailedFound` flags exactly as the source does. -/
def patternLoop (isWF : Bool) (className : String) :
    List AttrSchema → Bool → Bool → Except String Unit
  | [], stepFound, stepFailedFound =>
    if isWF && (!stepFound || !stepFailedFound) then
      .error ("necessary workflow attributes absent in schema for class " ++ className)
    else .ok ()
  | a :: rest, stepFound, stepFailedFound =>
    match checkAttrSchema isWF className a with
    | .error e => .error e
    | .ok _ =>
      patternLoop isWF className rest
        (stepFound || (a.name == step && a.valType == typeEnum))
        (stepFailedFound || (a.name == stepFailed && a.valType == typeBool))

/-- `verifyPatternSchema` of the source. -/
def verifyPatternSchema (rs : RuleSchema) (isWF : Bool) : Except String Unit :=
  if rs.patternSchema.length == 0 then
    .error ("pattern-schema for " ++ rs.className ++ " is empty")
  else patternLoop isWF rs.className rs.patternSchema false false

/-- The first task name of a list that is not a CruxID (the task loop of
`verifyActionSchema`). -/
def firstNonCruxID (xs : List String) : Option String :=
  xs.find? (fun x => !(isCruxID x))

/-- `getTasksMapForWF` of the source: the task list as a
`map[string]bool` with the sentinel `START` added. -/
def getTasksMapForWF (tasks : List String) : List (String × Bool) :=
  tasks.map (fun t => (t, true)) ++ [(start, true)]

/-- `getStepAttrVals` of the source: the `vals` map of the first `step`
attribute, or `none` for the Go `nil` return. -/
def getStepAttrVals (rs : RuleSchema) : Option (List (String × Bool)) :=
  (rs.patternSchema.find? (fun ps => ps.name == step)).map (fun ps => ps.vals)

/-- `reflect.DeepEqual` on two `map[string]bool` values: the same keys
bound to the same booleans (checked over the union of the key sets). -/
def mapsDeepEqual (m1 m2 : List (String × Bool)) : Bool :=
  (m1.map Prod.fst ++ m2.map Prod.fst).all (fun k => lookupB m1 k == lookupB m2 k)

/-- The task/step cross-check of `verifyActionSchema`:
`reflect.DeepEqual(getTasksMapForWF(tasks), getStepAttrVals(rs))`; the Go
`nil` map from a schema without a `step` attribute never equals the
non-empty tasks map. -/
def tasksStepDeepEqual (rs : RuleSchema) : Bool :=
  match getStepAttrVals rs with
  | none => false
  | some vals => mapsDeepEqual (getTasksMapForWF rs.actionSchema.tasks) vals

/-- The property loop of `verifyActionSchema`, threading `nsFound` and
`doneFound`. -/
def propsLoop : List String → Bool → Bool → Except String (Bool × Bool)
  | [], nsFound, doneFound => .ok (nsFound, doneFound)
  | p :: rest, nsFound, doneFound =>
    if !(isCruxID p) then .error ("property name " ++ p ++ " is not a valid CruxID")
    else if p == nextStep then propsLoop rest true doneFound
    else if p == done then propsLoop rest nsFound true
    else propsLoop rest nsFound doneFound

/-- `verifyActionSchema` of the source. -/
def verifyActionSchema (rs : RuleSchema) (isWF : Bool) : Except String Unit :=
  if rs.actionSchema.tasks.length == 0 && rs.actionSchema.properties.length == 0 then
    .error ("both tasks and properties are empty in schema for class " ++ rs.className)
  else
    match firstNonCruxID rs.actionSchema.tasks with
    | some t => .error ("task " ++ t ++ " is not a valid CruxID")
    | none =>
      if isWF && rs.actionSchema.properties.length != 2 then
        .error ("action-schema for " ++ rs.className ++ " does not contain exactly two properties")
      else
        match propsLoop rs.actionSchema.properties false false with
        | .error e => .error e
        | .ok nsDone =>
          if isWF && (!nsDone.1 || !nsDone.2) then
            .error ("action-schema for " ++ rs.className ++
              " does not contain both the properties \x27nextstep\x27 and \x27done\x27")
          else if isWF && !(tasksStepDeepEqual rs) then
            .error ("action-schema tasks for " ++ rs.className ++
              " are not the same as valid values for \x27step\x27 in pattern-schema")
          else .ok ()

/-- `verifyRuleSchema` of the source: empty-class check, then
pattern-schema, then action-schema, failing fast. -/
def verifyRuleSchema (rs : RuleSchema) (isWF : Bool) : Except String Unit :=
  if rs.className.length == 0 then .error ("schema class is empty string")
  else
    match verifyPatternSchema rs isWF with
    | .error e => .error e
    | .ok _ =>
      match verifyActionSchema rs isWF with
      | .error e => .error e
      | .ok _ => .ok ()

/-- The type resolution of one pattern term in `verifyRulePatterns`: a
name absent from the pattern-schema is accepted as a task "tag" of type
bool, otherwise rejected. -/
def resolvedType (schema : RuleSchema) (name : String) : Except String String :=
  let t := getType schema name
  if t == "" then
    if !(isStringInArray name schema.actionSchema.tasks) then
      .error ("attribute does not exist in schema: " ++ name)
    else .ok typeBool
  else .ok t

/-- The per-term checks of `verifyRulePatterns`: type resolution, value
type, operator. -/
def checkTerm (schema : RuleSchema) (t : RuleTerm) : Except String Unit :=
  match resolvedType schema t.attrName with
  | .error e => .error e
  | .ok vt =>
    if !(verifyType t.attrVal vt) then
      .error ("value of this attribute does not match schema type: " ++ t.attrName)
    else if !(validOps t.op) then
      .error ("invalid operation in rule: " ++ t.op)
    else .ok ()

/-- The term loop of `verifyRulePatterns` over one rule pattern. -/
def checkTerms (schema : RuleSchema) : List RuleTerm → Except String Unit
  | [] => .ok ()
  | t :: ts =>
    match checkTerm schema t with
    | .error e => .error e
    | .ok _ => checkTerms schema ts

/-- The per-rule part of `verifyRulePatterns`: all terms, then (for a
workflow) the presence scan for a `step` term, which stops at the first
match and so only tests presence. -/
def checkRulePattern (schema : RuleSchema) (setName : String) (isWF : Bool)
    (r : Rule) : Except String Unit :=
  match checkTerms schema r.rulePattern with
  | .error e => .error e
  | .ok _ =>
    if isWF && !(r.rulePattern.any (fun t => t.attrName == step)) then
      .error ("no \x27step\x27 attribute found in a rule in workflow " ++ setName)
    else .ok ()

/-- The rule loop of `verifyRulePatterns`. -/
def patternsLoop (schema : RuleSchema) (setName : String) (isWF : Bool) :
    List Rule → Except String Unit
  | [] => .ok ()
  | r :: rest =>
    match checkRulePattern schema setName isWF r with
    | .error e => .error e
    | .ok _ => patternsLoop schema setName isWF rest

/-- `verifyRulePatterns` of the source. -/
def verifyRulePatterns (ruleSet : RuleSet) (schema : RuleSchema) (isWF : Bool) :
    Except String Unit :=
  patternsLoop schema ruleSet.setName isWF ruleSet.rules

/-- The first element of `xs` not contained in `arr` (the membership
loops of `verifyRuleActions`). -/
def firstNotIn (xs arr : List String) : Option String :=
  xs.find? (fun x => !(isStringInArray x arr))

/-- `areNextStepAndDoneInProps` of the source: `nextstep` counts when
present; `done` counts only when bound to the string `true`. -/
def areNextStepAndDoneInProps (props : List (String × String)) : Bool × Bool :=
  (props.any (fun p => p.1 == nextStep),
   props.any (fun p => p.1 == done && p.2 == trueStr))

/-- `getNextStep` of the source: the value bound to `nextstep`, or the
empty string when absent. -/
def getNextStep (props : List (String × String)) : String :=
  match props.find? (fun p => p.1 == nextStep) with
  | some p => p.2
  | none => ""

/-- The workflows-only block of `verifyRuleActions` for one rule, with
the Go locals `nsDone` and `currNS` inlined. -/
def checkWFActions (setName : String) (r : Rule) : Except String Unit :=
  if !(areNextStepAndDoneInProps r.ruleActions.properties).1 &&
     !(areNextStepAndDoneInProps r.ruleActions.properties).2 then
    .error ("rule found with neither \x27nextstep\x27 nor \x27done\x27 in ruleset " ++ setName)
  else if !(areNextStepAndDoneInProps r.ruleActions.properties).2 &&
          r.ruleActions.tasks.length == 0 then
    .error ("no tasks and no \x27done=true\x27 in a rule in ruleset " ++ setName)
  else if (getNextStep r.ruleActions.properties).length > 0 &&
          !(isStringInArray (getNextStep r.ruleActions.properties) r.ruleActions.tasks) then
    .error ("`nextstep` value not found in `tasks` in a rule in ruleset " ++ setName)
  else .ok ()

/-- The per-rule checks of `verifyRuleActions`. -/
def checkRuleActions (schema : RuleSchema) (setName : String) (isWF : Bool)
    (r : Rule) : Except String Unit :=
  match firstNotIn r.ruleActions.tasks schema.actionSchema.tasks with
  | some t => .error ("task " ++ t ++ " not found in action-schema")
  | none =>
    match firstNotIn (r.ruleActions.properties.map Prod.fst) schema.actionSchema.properties with
    | some p => .error ("property name " ++ p ++ " not found in action-schema")
    | none =>
      if r.ruleActions.willReturn && r.ruleActions.willExit then
        .error ("there is a rule with both the RETURN and EXIT instructions in ruleset " ++ setName)
      else if isWF then checkWFActions setName r
      else .ok ()

/-- The rule loop of `verifyRuleActions`. -/
def actionsLoop (schema : RuleSchema) (setName : String) (isWF : Bool) :
    List Rule → Except String Unit
  | [] => .ok ()
  | r :: rest =>
    match checkRuleActions schema setName isWF r with
    | .error e => .error e
    | .ok _ => actionsLoop schema setName isWF rest

/-- `verifyRuleActions` of the source. -/
def verifyRuleActions (ruleSet : RuleSet) (schema : RuleSchema) (isWF : Bool) :
    Except String Unit :=
  actionsLoop schema ruleSet.setName isWF ruleSet.rules

/-- `verifyRuleSet` of the source: schema lookup, pattern pass, action
pass, failing fast. -/
def verifyRuleSet (ruleSchemas : List RuleSchema) (rs : RuleSet) (isWF : Bool) :
    Except String Unit :=
  match getSchema ruleSchemas rs.className with
  | .error e => .error e
  | .ok schema =>
    match verifyRulePatterns rs schema isWF with
    | .error e => .error e
    | .ok _ => verifyRuleActions rs schema isWF

/-- `doesRuleSetExist` of the source, with the global `ruleSets` registry
passed explicitly as an association list keyed by set name. -/
def doesRuleSetExist (ruleSets : List (String × RuleSet)) (name : String) :
    Except String Unit :=
  if name.length == 0 then .ok ()
  else if (ruleSets.find? (fun p => p.1 == name)).isSome then .ok ()
  else .error ("ruleset " ++ name ++ " does not exist")

/-- The rule loop of `doReferentialChecks`: `thenCall` then `elseCall`. -/
def callsLoop (ruleSets : List (String × RuleSet)) : List Rule → Except String Unit
  | [] => .ok ()
  | r :: rest =>
    match doesRuleSetExist ruleSets r.ruleActions.thenCall with
    | .error e => .error e
    | .ok _ =>
      match doesRuleSetExist ruleSets r.ruleActions.elseCall with
      | .error e => .error e
      | .ok _ => callsLoop ruleSets rest

/-- The rule-set loop of `doReferentialChecks` (the Go map iteration
order is fixed here as registry order, which only selects which missing
target is reported first). -/
def refLoop (ruleSets : List (String × RuleSet)) : List (String × RuleSet) → Except String Unit
  | [] => .ok ()
  | p :: rest =>
    match callsLoop ruleSets p.2.rules with
    | .error e => .error e
    | .ok _ => refLoop ruleSets rest

/-- `doReferentialChecks` of the source. -/
def doReferentialChecks (ruleSets : List (String × RuleSet)) : Except String Unit :=
  refLoop ruleSets ruleSets

/-- Modelled from the spec: `convertEntityAttrVal` is declared outside
the excerpted source; per section 4.5 the entity validator "checks the
value converts/type-matches (reusing section 4.1)", so conversion of a
typed value succeeds exactly when its runtime type matches the declared
type. -/
def convertEntityAttrVal (v : AttrVal) (t : String) : Except String AttrVal :=
  if verifyType v t then .ok v else .error ("conversion error")

/-- The attribute loop of `verifyEntity`. -/
def entityAttrsLoop (rs : RuleSchema) : List (String × AttrVal) → Except String Unit
  | [] => .ok ()
  | (attrName, attrVal) :: rest =>
    let t := getType rs attrName
    if t == "" then .error ("schema does not contain attribute " ++ attrName)
    else
      match convertEntityAttrVal attrVal t with
      | .error _ => .error ("attribute " ++ attrName ++ " in entity has value of wrong type")
      | .ok _ => entityAttrsLoop rs rest

/-- `verifyEntity` of the source: schema lookup, per-attribute type
check, then the attribute-count comparison. -/
def verifyEntity (ruleSchemas : List RuleSchema) (e : Entity) : Except String Unit :=
  match getSchema ruleSchemas e.className with
  | .error err => .error err
  | .ok rs =>
    match entityAttrsLoop rs e.attrs with
    | .error err => .error err
    | .ok _ =>
      if e.attrs.length != rs.patternSchema.length then
        .error ("entity does not contain all the attributes in its pattern-schema")
      else .ok ()

/-- The workflow schema of the spec, scenario 1: class `order`, a `step`
enum over {START, approve, reject}, a bool `stepfailed`, tasks
{approve, reject}, properties {nextstep, done}. -/
def wfSchema : RuleSchema :=
  { className := "order"
  , patternSchema :=
      [ { name := "step", valType := "enum"
        , vals := [("START", true), ("approve", true), ("reject", true)] }
      , { name := "stepfailed", valType := "bool", vals := [] } ]
  , actionSchema := { tasks := ["approve", "reject"], properties := ["nextstep", "done"] } }

/-- A rule whose pattern carries two terms on `step`. -/
def twoStepRule : Rule :=
  { rulePattern :=
      [ { attrName := "step", op := "eq", attrVal := .strV "approve" }
      , { attrName := "step", op := "ne", attrVal := .strV "reject" } ]
  , ruleActions :=
      { tasks := ["approve"], properties := [("nextstep", "approve")]
      , thenCall := "", elseCall := "", willReturn := false, willExit := false } }

/-- A one-rule workflow rule set whose rule has two `step` terms. -/
def twoStepRuleSet : RuleSet :=
  { className := "order", setName := "rs1", rules := [twoStepRule] }

/-- A rule whose only property is `done` bound to the string `false`. -/
def doneFalseRule : Rule :=
  { rulePattern := [ { attrName := "step", op := "eq", attrVal := .strV "approve" } ]
  , ruleActions :=
      { tasks := ["approve"], properties := [("done", "false")]
      , thenCall := "", elseCall := "", willReturn := false, willExit := false } }

/-- A one-rule workflow rule set around `doneFalseRule`. -/
def doneFalseRuleSet : RuleSet :=
  { className := "order", setName := "rs2", rules := [doneFalseRule] }

/-- A workflow schema whose `step` vals map carries an entry explicitly
bound to `false`: its truthy membership is {START}, agreeing with the
task set (empty) plus START, yet the maps differ as key-value maps. -/
def falseEntrySchema : RuleSchema :=
  { className := "order"
  , patternSchema :=
      [ { name := "step", valType := "enum", vals := [("START", true), ("extra", false)] }
      , { name := "stepfailed", valType := "bool", vals := [] } ]
  , actionSchema := { tasks := [], properties := ["nextstep", "done"] } }

/-- A rule that sets `nextstep` to the empty string. -/
def emptyNextStepRule : Rule :=
  { rulePattern := [ { attrName := "step", op := "eq", attrVal := .strV "approve" } ]
  , ruleActions :=
      { tasks := ["approve"], properties := [("nextstep", "")]
      , thenCall := "", elseCall := "", willReturn := false, willExit := false } }

/-- A one-rule workflow rule set around `emptyNextStepRule`. -/
def emptyNextStepRuleSet : RuleSet :=
  { className := "order", setName := "rs4", rules := [emptyNextStepRule] }

/-- A well-formed workflow rule: one `step` term, `nextstep` set to a
value among its own tasks. -/
def goodWFRule : Rule :=
  { rulePattern := [ { attrName := "step", op := "eq", attrVal := .strV "START" } ]
  , ruleActions :=
      { tasks := ["approve"], properties := [("nextstep", "approve")]
      , thenCall := "", elseCall := "", willReturn := false, willExit := false } }

/-- A one-rule workflow rule set around `goodWFRule`. -/
def goodWFRuleSet : RuleSet :=
  { className := "order", setName := "rs5", rules := [goodWFRule] }

/-- A schema declaring the attribute name `a` twice, with types `int`
then `str`, each declaration individually well-formed. -/
def dupAttrSchema : RuleSchema :=
  { className := "c"
  , patternSchema :=
      [ { name := "a", valType := "int", vals := [] }
      , { name := "a", valType := "str", vals := [] } ]
  , actionSchema := { tasks := ["t"], properties := [] } }

/-- A rule whose `thenCall` names the absent rule set `R2`. -/
def ruleCallingR2 : Rule :=
  { rulePattern := []
  , ruleActions :=
      { tasks := [], properties := [], thenCall := "R2", elseCall := ""
      , willReturn := false, willExit := false } }

/-- A registry holding only `R1`, whose rule calls the absent `R2`. -/
def regWithR1 : List (String × RuleSet) :=
  [("R1", { className := "order", setName := "R1", rules := [ruleCallingR2] })]

/-- An entity carrying exactly the attributes of `wfSchema`. -/
def goodEntity : Entity :=
  { className := "order", attrs := [("step", .strV "approve"), ("stepfailed", .boolV false)] }

/-- A schema with an empty class name and other violations besides. -/
def emptyClassSchema : RuleSchema :=
  { className := "", patternSchema := [], actionSchema := { tasks := [], properties := [] } }

/-- A schema with a non-empty class and an empty pattern-schema. -/
def emptyPatternSchemaFixture : RuleSchema :=
  { className := "c", patternSchema := [], actionSchema := { tasks := ["t"], properties := [] } }

/-- A pattern term on a task name that is absent from the pattern-schema
(a tag test). -/
def tagTerm : RuleTerm := { attrName := "approve", op := "eq", attrVal := .boolV true }

/-- Two attribute declarations that denote the same Go data: equal name
and type, and `vals` lists holding the same bindings, possibly in a
different iteration order (a Go map fixes no order; the list order of
this embedding stands for the randomized iteration order of one run). -/
def attrValsPerm (a b : AttrSchema) : Prop :=
  a.name = b.name ∧ a.valType = b.valType ∧ a.vals.Perm b.vals

/-- A schema whose enum attribute holds two invalid values, iterated in
the order X then Y. -/
def schemaEnumXY : RuleSchema :=
  { className := "c"
  , patternSchema := [ { name := "e", valType := "enum", vals := [("X", true), ("Y", true)] } ]
  , actionSchema := { tasks := ["t"], properties := [] } }

/-- The same schema as `schemaEnumXY` — identical class, attribute and
bindings — with the vals map iterated in the order Y then X. -/
def schemaEnumYX : RuleSchema :=
  { className := "c"
  , patternSchema := [ { name := "e", valType := "enum", vals := [("Y", true), ("X", true)] } ]
  , actionSchema := { tasks := ["t"], properties := [] } }

/-- A rule set with no rules, named `a`. -/
def rsEmptyA : RuleSet := { className := "c", setName := "a", rules := [] }

/-- A rule set with no rules, named `b`. -/
def rsEmptyB : RuleSet := { className := "c", setName := "b", rules := [] }

/-- A two-entry registry in one iteration order. -/
def regPairAB : List (String × RuleSet) := [("a", rsEmptyA), ("b", rsEmptyB)]

/-- The same registry as `regPairAB` in the other iteration order. -/
def regPairBA : List (String × RuleSet) := [("b", rsEmptyB), ("a", rsEmptyA)]

/-- An entity of `wfSchema` with its attribute map iterated `step`
first. -/
def entityStepFirst : Entity :=
  { className := "order", attrs := [("step", .strV "approve"), ("stepfailed", .boolV false)] }

/-- The same entity as `entityStepFirst` with the other iteration
order. -/
def entityStepLast : Entity :=
  { className := "order", attrs := [("stepfailed", .boolV false), ("step", .strV "approve")] }

/-- A non-empty string has positive length. -/
theorem length_pos_of_ne_empty (s : String) (h : s ≠ "") : 0 < s.length := by
  cases s with
  | mk data =>
    cases data with
    | nil => exact absurd rfl h
    | cons c cs => simp [String.length]

/-- A string has length zero exactly when it is empty. -/
theorem string_length_eq_zero (s : String) : s.length = 0 ↔ s = "" := by
  cases s with
  | mk data =>
    cases data with
    | nil => simp [String.length]
    | cons c cs =>
      constructor
      · intro h
        exact absurd h (by simp [String.length])
      · intro h
        have := congrArg String.data h
        simp at this

/-- Two error values built by appending the same suffix to prefixes of
different lengths are distinct. -/
theorem error_append_ne (m1 m2 s : String) (h : m1.length ≠ m2.length) :
    (Except.error (m1 ++ s) : Except String Unit) ≠ Except.error (m2 ++ s) := by
  intro he
  have h1 : m1 ++ s = m2 ++ s := by injection he
  have h2 := congrArg String.length h1
  rw [String.length_append, String.length_append] at h2
  exact h (Nat.add_right_cancel h2)

/-- A rule passing `checkRulePattern` in workflow mode has some `step`
term. -/
theorem checkRulePattern_ok_step (schema : RuleSchema) (setName : String) (r : Rule)
    (h : checkRulePattern schema setName true r = .ok ()) :
    r.rulePattern.any (fun t => t.attrName == step) = true := by
  unfold checkRulePattern at h
  cases hc : checkTerms schema r.rulePattern with
  | error e => rw [hc] at h; exact absurd h (by simp)
  | ok u =>
    rw [hc] at h
    by_cases ha : r.rulePattern.any (fun t => t.attrName == step) = true
    · exact ha
    · rw [Bool.not_eq_true] at ha
      simp [ha] at h

/-- Every rule of a list passing `patternsLoop` passes
`checkRulePattern`. -/
theorem patternsLoop_ok (schema : RuleSchema) (setName : String) (isWF : Bool)
    (rules : List Rule) (h : patternsLoop schema setName isWF rules = .ok ()) :
    ∀ r ∈ rules, checkRulePattern schema setName isWF r = .ok () := by
  induction rules with
  | nil => intro r hr; cases hr
  | cons a rest ih =>
    intro r hr
    unfold patternsLoop at h
    cases hc : checkRulePattern schema setName isWF a with
    | error e => rw [hc] at h; exact absurd h (by simp)
    | ok u =>
      rw [hc] at h
      cases hr with
      | head => cases u; exact hc
      | tail _ hmem => exact ih h r hmem

/-- Deep map equality makes the two lookup functions agree at every key,
also outside the key sets, where both are absent. -/
theorem lookupB_eq_of_deepEqual (m1 m2 : List (String × Bool))
    (h : mapsDeepEqual m1 m2 = true) (k : String) : lookupB m1 k = lookupB m2 k := by
  unfold mapsDeepEqual at h
  rw [List.all_eq_true] at h
  by_cases h1 : ∃ p ∈ m1, p.1 = k
  · obtain ⟨p, hp, hk⟩ := h1
    have hmem : k ∈ m1.map Prod.fst ++ m2.map Prod.fst := by
      rw [List.mem_append]
      exact Or.inl (List.mem_map.mpr ⟨p, hp, hk⟩)
    exact eq_of_beq (h k hmem)
  · by_cases h2 : ∃ p ∈ m2, p.1 = k
    · obtain ⟨p, hp, hk⟩ := h2
      have hmem : k ∈ m1.map Prod.fst ++ m2.map Prod.fst := by
        rw [List.mem_append]
        exact Or.inr (List.mem_map.mpr ⟨p, hp, hk⟩)
      exact eq_of_beq (h k hmem)
    · have e1 : m1.find? (fun p => p.1 == k) = none := by
        rw [List.find?_eq_none]
        intro p hp
        simp only [beq_iff_eq]
        intro hc
        exact h1 ⟨p, hp, hc⟩
      have e2 : m2.find? (fun p => p.1 == k) = none := by
        rw [List.find?_eq_none]
        intro p hp
        simp only [beq_iff_eq]
        intro hc
        exact h2 ⟨p, hp, hc⟩
      unfold lookupB
      rw [e1, e2]

/-- A schema passing `verifyRuleSchema` passes `verifyActionSchema`. -/
theorem verifyRuleSchema_ok_action (rs : RuleSchema) (isWF : Bool)
    (h : verifyRuleSchema rs isWF = .ok ()) : verifyActionSchema rs isWF = .ok () := by
  unfold verifyRuleSchema at h
  split at h
  · exact absurd h (by simp)
  · cases hp : verifyPatternSchema rs isWF with
    | error e => rw [hp] at h; exact absurd h (by simp)
    | ok u =>
      rw [hp] at h
      cases ha : verifyActionSchema rs isWF with
      | error e => rw [ha] at h; exact absurd h (by simp)
      | ok v => cases v; rfl

/-- A workflow schema passing `verifyActionSchema` passes the deep-map
cross-check. -/
theorem verifyActionSchema_ok_deepEqual (rs : RuleSchema)
    (h : verifyActionSchema rs true = .ok ()) : tasksStepDeepEqual rs = true := by
  unfold verifyActionSchema at h
  split at h
  · exact absurd h (by simp)
  · split at h
    · exact absurd h (by simp)
    · split at h
      · exact absurd h (by simp)
      · split at h
        · exact absurd h (by simp)
        · split at h
          · exact absurd h (by simp)
          · split at h
            · exact absurd h (by simp)
            · rename_i hcond
              by_cases hd : tasksStepDeepEqual rs = true
              · exact hd
              · rw [Bool.not_eq_true] at hd
                simp [hd] at hcond

/-- Under passing membership and return/exit checks, the per-rule action
check in workflow mode is the workflows-only block. -/
theorem checkRuleActions_wf (schema : RuleSchema) (setName : String) (r : Rule)
    (htasks : firstNotIn r.ruleActions.tasks schema.actionSchema.tasks = none)
    (hprops : firstNotIn (r.ruleActions.properties.map Prod.fst)
        schema.actionSchema.properties = none)
    (hre : (r.ruleActions.willReturn && r.ruleActions.willExit) = false) :
    checkRuleActions schema setName true r = checkWFActions setName r := by
  unfold checkRuleActions
  rw [htasks, hprops, hre]
  simp

/-- The workflows-only block yields the neither-nextstep-nor-done error
exactly when the properties hold no `nextstep` binding and no `done`
binding to the string `true`. -/
theorem checkWFActions_neither_iff (setName : String) (r : Rule) :
    (checkWFActions setName r =
        .error ("rule found with neither \x27nextstep\x27 nor \x27done\x27 in ruleset " ++ setName))
      ↔ ((areNextStepAndDoneInProps r.ruleActions.properties).1 = false ∧
         (areNextStepAndDoneInProps r.ruleActions.properties).2 = false) := by
  unfold checkWFActions
  cases hns : (areNextStepAndDoneInProps r.ruleActions.properties).1 with
  | false =>
    cases hdn : (areNextStepAndDoneInProps r.ruleActions.properties).2 with
    | false => simp
    | true =>
      simp only [Bool.not_false, Bool.not_true, Bool.true_and, Bool.and_false, Bool.false_and,
        Bool.false_eq_true, and_false, iff_false, if_false, Bool.true_eq_false]
      split
      · exact error_append_ne _ _ _ (by decide)
      · simp
  | true =>
    simp only [Bool.not_true, Bool.false_and, Bool.false_eq_true, false_and, iff_false,
      if_false, Bool.true_eq_false, and_false]
    split
    · exact error_append_ne _ _ _ (by decide)
    · split
      · exact error_append_ne _ _ _ (by decide)
      · simp

/-- The neither-error characterization restated on the raw `List.any`
scans of the properties list. -/
theorem checkWFActions_neither_any_iff (setName : String) (r : Rule) :
    (checkWFActions setName r =
        .error ("rule found with neither \x27nextstep\x27 nor \x27done\x27 in ruleset " ++ setName))
      ↔ ((r.ruleActions.properties.any (fun p => p.1 == nextStep)) = false ∧
         (r.ruleActions.properties.any (fun p => p.1 == done && p.2 == trueStr)) = false) := by
  rw [checkWFActions_neither_iff]
  unfold areNextStepAndDoneInProps
  exact Iff.rfl

/-- Every rule of a list passing `actionsLoop` passes
`checkRuleActions`. -/
theorem actionsLoop_ok (schema : RuleSchema) (setName : String) (isWF : Bool)
    (rules : List Rule) (h : actionsLoop schema setName isWF rules = .ok ()) :
    ∀ r ∈ rules, checkRuleActions schema setName isWF r = .ok () := by
  induction rules with
  | nil => intro r hr; cases hr
  | cons a rest ih =>
    intro r hr
    unfold actionsLoop at h
    cases hc : checkRuleActions schema setName isWF a with
    | error e => rw [hc] at h; exact absurd h (by simp)
    | ok u =>
      rw [hc] at h
      cases hr with
      | head => cases u; exact hc
      | tail _ hmem => exact ih h r hmem

/-- A rule passing the per-rule action check in workflow mode passes the
workflows-only block. -/
theorem checkRuleActions_ok_wf (schema : RuleSchema) (setName : String) (r : Rule)
    (h : checkRuleActions schema setName true r = .ok ()) :
    checkWFActions setName r = .ok () := by
  unfold checkRuleActions at h
  split at h
  · exact absurd h (by simp)
  · split at h
    · exact absurd h (by simp)
    · split at h
      · exact absurd h (by simp)
      · simpa using h

/-- A rule passing the workflows-only block with a non-empty `nextstep`
value has that value among its own tasks. -/
theorem checkWFActions_ok_nextstep (setName : String) (r : Rule)
    (h : checkWFActions setName r = .ok ())
    (hne : getNextStep r.ruleActions.properties ≠ "") :
    isStringInArray (getNextStep r.ruleActions.properties) r.ruleActions.tasks = true := by
  unfold checkWFActions at h
  split at h
  · exact absurd h (by simp)
  · split at h
    · exact absurd h (by simp)
    · split at h
      · exact absurd h (by simp)
      · rename_i hcond
        by_cases hin : isStringInArray (getNextStep r.ruleActions.properties)
            r.ruleActions.tasks = true
        · exact hin
        · exfalso
          apply hcond
          rw [Bool.not_eq_true] at hin
          have hpos : 0 < (getNextStep r.ruleActions.properties).length :=
            length_pos_of_ne_empty _ hne
          simp [hin, hpos]

/-- The entity attribute loop succeeds exactly when every attribute is
declared and its value converts to the declared type. -/
theorem entityAttrsLoop_ok_iff (rs : RuleSchema) (attrs : List (String × AttrVal)) :
    entityAttrsLoop rs attrs = .ok () ↔
      ∀ p ∈ attrs, getType rs p.1 ≠ "" ∧
        convertEntityAttrVal p.2 (getType rs p.1) = .ok p.2 := by
  induction attrs with
  | nil => simp [entityAttrsLoop]
  | cons a rest ih =>
    obtain ⟨n, v⟩ := a
    unfold entityAttrsLoop
    by_cases ht : getType rs n = ""
    · simp [ht]
    · have ht' : (getType rs n == "") = false := by
        rw [beq_eq_false_iff_ne]
        exact ht
      simp only [ht']
      by_cases hv : verifyType v (getType rs n) = true
      · have hconv : convertEntityAttrVal v (getType rs n) = .ok v := by
          unfold convertEntityAttrVal
          rw [hv]
          simp
        simp only [if_false, Bool.false_eq_true, hconv]
        simp [ih, ht, hconv]
      · have hv' : verifyType v (getType rs n) = false := by
          rwa [Bool.not_eq_true] at hv
        have hconv : convertEntityAttrVal v (getType rs n) =
            .error ("conversion error") := by
          unfold convertEntityAttrVal
          rw [hv']
          simp
        simp only [if_false, Bool.false_eq_true, hconv]
        simp [hconv]

/-- `doesRuleSetExist` succeeds exactly for the empty name or a name
present in the registry. -/
theorem doesRuleSetExist_ok_iff (reg : List (String × RuleSet)) (name : String) :
    doesRuleSetExist reg name = .ok () ↔
      (name = "" ∨ (reg.find? (fun q => q.1 == name)).isSome = true) := by
  unfold doesRuleSetExist
  by_cases h0 : name = ""
  · subst h0
    simp
  · have hlen : (name.length == 0) = false := by
      rw [beq_eq_false_iff_ne]
      intro hc
      exact h0 ((string_length_eq_zero name).mp hc)
    rw [hlen]
    by_cases hs : (reg.find? (fun q => q.1 == name)).isSome = true
    · simp [hs, h0]
    · rw [Bool.not_eq_true] at hs
      simp [hs, h0]

/-- The call loop succeeds exactly when both calls of every rule
resolve. -/
theorem callsLoop_ok_iff (reg : List (String × RuleSet)) (rules : List Rule) :
    callsLoop reg rules = .ok () ↔
      ∀ r ∈ rules, doesRuleSetExist reg r.ruleActions.thenCall = .ok () ∧
        doesRuleSetExist reg r.ruleActions.elseCall = .ok () := by
  induction rules with
  | nil => simp [callsLoop]
  | cons a rest ih =>
    unfold callsLoop
    cases h1 : doesRuleSetExist reg a.ruleActions.thenCall with
    | error e => simp [h1]
    | ok u =>
      cases u
      cases h2 : doesRuleSetExist reg a.ruleActions.elseCall with
      | error e => simp [h1, h2]
      | ok v =>
        cases v
        simp [h1, h2, ih]

/-- The registry loop succeeds exactly when the call loop of every rule set
succeeds. -/
theorem refLoop_ok_iff (reg rest : List (String × RuleSet)) :
    refLoop reg rest = .ok () ↔ ∀ p ∈ rest, callsLoop reg p.2.rules = .ok () := by
  induction rest with
  | nil => simp [refLoop]
  | cons a rst ih =>
    unfold refLoop
    cases h1 : callsLoop reg a.2.rules with
    | error e => simp [h1]
    | ok u =>
      cases u
      simp [h1, ih]

/-- A successful `lookupB` result is a binding of the map. -/
theorem lookupB_mem_of_eq_some (m : List (String × Bool)) (k : String) (v : Bool)
    (h : lookupB m k = some v) : (k, v) ∈ m := by
  unfold lookupB at h
  cases hf : m.find? (fun p => p.1 == k) with
  | none => rw [hf] at h; cases h
  | some p =>
    rw [hf] at h
    have hp1 := List.find?_some hf
    simp only [beq_iff_eq] at hp1
    have hpm : p ∈ m := List.mem_of_find?_eq_some hf
    have hv : p.2 = v := by injection h
    have hkv : p = (k, v) := Prod.ext hp1 hv
    rwa [hkv] at hpm

/-- With unique keys, every binding of the map is found by `lookupB`. -/
theorem lookupB_eq_some_of_mem (m : List (String × Bool)) (k : String) (v : Bool)
    (hnd : (m.map Prod.fst).Nodup) (hm : (k, v) ∈ m) : lookupB m k = some v := by
  induction m with
  | nil => cases hm
  | cons p rest ih =>
    rw [List.map_cons, List.nodup_cons] at hnd
    by_cases hk : p.1 = k
    · have hp : p = (k, v) := by
        cases hm with
        | head => rfl
        | tail _ hmem =>
          exfalso
          apply hnd.1
          rw [hk]
          exact List.mem_map.mpr ⟨(k, v), hmem, rfl⟩
      unfold lookupB
      rw [List.find?_cons_of_pos _ (by simp [hk])]
      rw [hp]
      rfl
    · have hmem : (k, v) ∈ rest := by
        cases hm with
        | head => exact absurd rfl hk
        | tail _ hmem => exact hmem
      unfold lookupB
      rw [List.find?_cons_of_neg _ (by simp [hk])]
      exact ih hnd.2 hmem

/-- `lookupB` misses exactly the keys that no binding carries. -/
theorem lookupB_eq_none_iff (m : List (String × Bool)) (k : String) :
    lookupB m k = none ↔ ∀ p ∈ m, p.1 ≠ k := by
  unfold lookupB
  cases hf : m.find? (fun p => p.1 == k) with
  | none =>
    rw [List.find?_eq_none] at hf
    constructor
    · intro _ p hp
      have h2 := hf p hp
      simpa using h2
    · intro _
      rfl
  | some p =>
    constructor
    · intro h
      cases h
    · intro h
      exfalso
      have hp1 := List.find?_some hf
      simp only [beq_iff_eq] at hp1
      exact h p (List.mem_of_find?_eq_some hf) hp1

/-- Reordering a map with unique keys does not change any lookup. -/
theorem lookupB_perm (m1 m2 : List (String × Bool)) (hp : m1.Perm m2)
    (hnd : (m1.map Prod.fst).Nodup) (k : String) : lookupB m1 k = lookupB m2 k := by
  have hnd2 : (m2.map Prod.fst).Nodup := ((hp.map Prod.fst).nodup_iff).mp hnd
  cases h1 : lookupB m1 k with
  | some v =>
    have hm : (k, v) ∈ m2 := hp.mem_iff.mp (lookupB_mem_of_eq_some m1 k v h1)
    rw [lookupB_eq_some_of_mem m2 k v hnd2 hm]
  | none =>
    rw [lookupB_eq_none_iff] at h1
    have h2 : lookupB m2 k = none := by
      rw [lookupB_eq_none_iff]
      intro p hpm
      exact h1 p (hp.mem_iff.mpr hpm)
    rw [h2]

/-- Whether a scan finds nothing is invariant under reordering. -/
theorem find?_none_iff_of_perm {α : Type} (l1 l2 : List α) (p : α → Bool)
    (hp : l1.Perm l2) : l1.find? p = none ↔ l2.find? p = none := by
  rw [List.find?_eq_none, List.find?_eq_none]
  constructor
  · intro h x hx
    exact h x (hp.mem_iff.mpr hx)
  · intro h x hx
    exact h x (hp.mem_iff.mp hx)

/-- The success condition of `checkAttrSchema`, mirroring its check
chain. -/
theorem checkAttrSchema_ok_iff (isWF : Bool) (cn : String) (a : AttrSchema) :
    checkAttrSchema isWF cn a = .ok () ↔
      (isCruxID a.name = true ∧ validTypes a.valType = true ∧
       (a.valType == typeEnum && a.vals.length == 0) = false ∧
       firstBadEnumVal a.vals = none ∧
       (isWF && a.name == step && !(mapGet a.vals start)) = false) := by
  unfold checkAttrSchema
  by_cases h1 : isCruxID a.name = true
  · by_cases h2 : validTypes a.valType = true
    · by_cases h3 : (a.valType == typeEnum && a.vals.length == 0) = true
      · simp [h1, h2, h3]
      · rw [Bool.not_eq_true] at h3
        cases h4 : firstBadEnumVal a.vals with
        | some v => simp [h1, h2, h3, h4]
        | none =>
          by_cases h5 : (isWF && a.name == step && !(mapGet a.vals start)) = true
          · simp [h1, h2, h3, h4, h5]
          · rw [Bool.not_eq_true] at h5
            simp [h1, h2, h3, h4, h5]
    · rw [Bool.not_eq_true] at h2
      simp [h1, h2]
  · rw [Bool.not_eq_true] at h1
    simp [h1]

/-- The per-attribute verdict is invariant under reordering of the
enum-values map (the error value is not: the offender found first
differs). -/
theorem checkAttrSchema_ok_perm (isWF : Bool) (cn1 cn2 : String) (a b : AttrSchema)
    (hab : attrValsPerm a b) (hnd : (a.vals.map Prod.fst).Nodup) :
    (checkAttrSchema isWF cn1 a = .ok () ↔ checkAttrSchema isWF cn2 b = .ok ()) := by
  obtain ⟨hname, hvt, hperm⟩ := hab
  rw [checkAttrSchema_ok_iff, checkAttrSchema_ok_iff]
  have hlen : a.vals.length = b.vals.length := hperm.length_eq
  have hbad : firstBadEnumVal a.vals = none ↔ firstBadEnumVal b.vals = none := by
    unfold firstBadEnumVal
    exact find?_none_iff_of_perm _ _ _ (hperm.map Prod.fst)
  have hget : mapGet a.vals start = mapGet b.vals start := by
    unfold mapGet
    rw [lookupB_perm a.vals b.vals hperm hnd start]
  rw [hname, hvt, hlen, hget]
  constructor
  · rintro ⟨c1, c2, c3, c4, c5⟩
    exact ⟨c1, c2, c3, hbad.mp c4, c5⟩
  · rintro ⟨c1, c2, c3, c4, c5⟩
    exact ⟨c1, c2, c3, hbad.mpr c4, c5⟩

/-- The attribute-loop verdict is invariant under per-attribute
reordering of the enum-values maps. -/
theorem patternLoop_ok_perm (isWF : Bool) (cn1 cn2 : String) :
    ∀ (l1 l2 : List AttrSchema), List.Forall₂ attrValsPerm l1 l2 →
      (∀ a ∈ l1, (a.vals.map Prod.fst).Nodup) →
      ∀ sf sff, (patternLoop isWF cn1 l1 sf sff = .ok () ↔
        patternLoop isWF cn2 l2 sf sff = .ok ()) := by
  intro l1 l2 hf
  induction hf with
  | nil =>
    intro hnd sf sff
    unfold patternLoop
    by_cases hc : (isWF && (!sf || !sff)) = true
    · simp [hc]
    · rw [Bool.not_eq_true] at hc
      simp [hc]
  | cons hab hrest ih =>
    rename_i a b l1' l2'
    intro hnd sf sff
    have hnda : (a.vals.map Prod.fst).Nodup := hnd a (List.mem_cons_self a l1')
    have hiff := checkAttrSchema_ok_perm isWF cn1 cn2 a b hab hnda
    unfold patternLoop
    cases hca : checkAttrSchema isWF cn1 a with
    | error e =>
      have hnb : ¬(checkAttrSchema isWF cn2 b = .ok ()) := by
        intro hc
        have h2 := hiff.mpr hc
        rw [hca] at h2
        exact absurd h2 (by simp)
      cases hcb : checkAttrSchema isWF cn2 b with
      | error e2 => simp
      | ok u => exact absurd (by cases u; exact hcb) hnb
    | ok u =>
      cases u
      have hcb : checkAttrSchema isWF cn2 b = .ok () := hiff.mp hca
      rw [hcb]
      simp only []
      obtain ⟨hname, hvt, _⟩ := hab
      rw [hname, hvt]
      exact ih (fun x hx => hnd x (List.mem_cons_of_mem a hx)) _ _

/-- The pattern-schema verdict is invariant under per-attribute
reordering of the enum-values maps. -/
theorem verifyPatternSchema_ok_perm (rs1 rs2 : RuleSchema) (isWF : Bool)
    (hps : List.Forall₂ attrValsPerm rs1.patternSchema rs2.patternSchema)
    (hnd : ∀ a ∈ rs1.patternSchema, (a.vals.map Prod.fst).Nodup) :
    (verifyPatternSchema rs1 isWF = .ok () ↔ verifyPatternSchema rs2 isWF = .ok ()) := by
  unfold verifyPatternSchema
  have hlen : rs1.patternSchema.length = rs2.patternSchema.length := hps.length_eq
  rw [hlen]
  by_cases h0 : (rs2.patternSchema.length == 0) = true
  · simp [h0]
  · rw [Bool.not_eq_true] at h0
    simp only [h0, Bool.false_eq_true, if_false]
    exact patternLoop_ok_perm isWF rs1.className rs2.className
      rs1.patternSchema rs2.patternSchema hps hnd false false

/-- Two pattern-schemas related pointwise find the `step` attribute at
the same position, if at all. -/
theorem getStepAttrVals_forall2 (l1 l2 : List AttrSchema)
    (hf : List.Forall₂ attrValsPerm l1 l2) :
    (l1.find? (fun ps => ps.name == step) = none ∧
     l2.find? (fun ps => ps.name == step) = none) ∨
    (∃ a b, l1.find? (fun ps => ps.name == step) = some a ∧
      l2.find? (fun ps => ps.name == step) = some b ∧
      a ∈ l1 ∧ attrValsPerm a b) := by
  induction hf with
  | nil => exact Or.inl ⟨rfl, rfl⟩
  | cons hab hrest ih =>
    rename_i a b l1' l2'
    by_cases hs : a.name = step
    · right
      refine ⟨a, b, ?_, ?_, List.mem_cons_self a l1', hab⟩
      · rw [List.find?_cons_of_pos _ (by simp [hs])]
      · rw [List.find?_cons_of_pos _ (by simp [← hab.1, hs])]
    · have hbs : ¬(b.name = step) := by
        rw [← hab.1]
        exact hs
      rcases ih with ⟨h1, h2⟩ | ⟨x, y, h1, h2, hmem, hxy⟩
      · left
        constructor
        · rw [List.find?_cons_of_neg _ (by simp [hs])]
          exact h1
        · rw [List.find?_cons_of_neg _ (by simp [hbs])]
          exact h2
      · right
        refine ⟨x, y, ?_, ?_, List.mem_cons_of_mem a hmem, hxy⟩
        · rw [List.find?_cons_of_neg _ (by simp [hs])]
          exact h1
        · rw [List.find?_cons_of_neg _ (by simp [hbs])]
          exact h2

/-- Reordering the right map (unique keys) does not change the deep
map-equality verdict. -/
theorem mapsDeepEqual_perm_right (m v1 v2 : List (String × Bool))
    (hp : v1.Perm v2) (hnd : (v1.map Prod.fst).Nodup) :
    mapsDeepEqual m v1 = mapsDeepEqual m v2 := by
  have hl : ∀ k, lookupB v1 k = lookupB v2 k := lookupB_perm v1 v2 hp hnd
  rw [Bool.eq_iff_iff]
  unfold mapsDeepEqual
  rw [List.all_eq_true, List.all_eq_true]
  constructor
  · intro h k hk
    have hk1 : k ∈ m.map Prod.fst ++ v1.map Prod.fst := by
      rcases List.mem_append.mp hk with h1 | h2
      · exact List.mem_append.mpr (Or.inl h1)
      · exact List.mem_append.mpr (Or.inr ((hp.map Prod.fst).mem_iff.mpr h2))
    have h3 := h k hk1
    rwa [hl k] at h3
  · intro h k hk
    have hk2 : k ∈ m.map Prod.fst ++ v2.map Prod.fst := by
      rcases List.mem_append.mp hk with h1 | h2
      · exact List.mem_append.mpr (Or.inl h1)
      · exact List.mem_append.mpr (Or.inr ((hp.map Prod.fst).mem_iff.mp h2))
    have h3 := h k hk2
    rwa [← hl k] at h3

/-- The task/step cross-check is invariant under reordering of the
enum-values maps. -/
theorem tasksStepDeepEqual_perm (rs1 rs2 : RuleSchema)
    (hact : rs1.actionSchema = rs2.actionSchema)
    (hps : List.Forall₂ attrValsPerm rs1.patternSchema rs2.patternSchema)
    (hnd : ∀ a ∈ rs1.patternSchema, (a.vals.map Prod.fst).Nodup) :
    tasksStepDeepEqual rs1 = tasksStepDeepEqual rs2 := by
  unfold tasksStepDeepEqual getStepAttrVals
  rcases getStepAttrVals_forall2 rs1.patternSchema rs2.patternSchema hps with
    ⟨h1, h2⟩ | ⟨a, b, h1, h2, hmem, hab⟩
  · rw [h1, h2]
    rfl
  · rw [h1, h2]
    show mapsDeepEqual (getTasksMapForWF rs1.actionSchema.tasks) a.vals =
      mapsDeepEqual (getTasksMapForWF rs2.actionSchema.tasks) b.vals
    rw [← hact]
    exact mapsDeepEqual_perm_right _ a.vals b.vals hab.2.2 (hnd a hmem)

/-- The success condition of `verifyActionSchema`, mirroring its check
chain. -/
theorem verifyActionSchema_ok_iff (rs : RuleSchema) (isWF : Bool) :
    verifyActionSchema rs isWF = .ok () ↔
      ((rs.actionSchema.tasks.length == 0 && rs.actionSchema.properties.length == 0) = false ∧
       firstNonCruxID rs.actionSchema.tasks = none ∧
       (isWF && rs.actionSchema.properties.length != 2) = false ∧
       ∃ nsDone, propsLoop rs.actionSchema.properties false false = .ok nsDone ∧
         (isWF && (!nsDone.1 || !nsDone.2)) = false ∧
         (isWF && !(tasksStepDeepEqual rs)) = false) := by
  unfold verifyActionSchema
  by_cases h1 : (rs.actionSchema.tasks.length == 0 && rs.actionSchema.properties.length == 0) = true
  · simp [h1]
  · rw [Bool.not_eq_true] at h1
    cases h2 : firstNonCruxID rs.actionSchema.tasks with
    | some t => simp [h1, h2]
    | none =>
      by_cases h3 : (isWF && rs.actionSchema.properties.length != 2) = true
      · simp [h1, h2, h3]
      · rw [Bool.not_eq_true] at h3
        cases h4 : propsLoop rs.actionSchema.properties false false with
        | error e => simp [h1, h2, h3, h4]
        | ok nsDone =>
          by_cases h5 : (isWF && (!nsDone.1 || !nsDone.2)) = true
          · simp [h1, h2, h3, h4, h5]
            intro hA
            exfalso
            rw [Bool.and_eq_true] at h5
            obtain ⟨hw, hor⟩ := h5
            obtain ⟨hn1, hn2⟩ := hA hw
            rw [hn1, hn2] at hor
            simp at hor
          · rw [Bool.not_eq_true] at h5
            by_cases h6 : (isWF && !(tasksStepDeepEqual rs)) = true
            · simp [h1, h2, h3, h4, h5, h6]
            · rw [Bool.not_eq_true] at h6
              simp [h1, h2, h3, h4, h5, h6]
              intro hw
              rw [hw] at h5
              simp at h5
              exact h5

/-- The action-schema verdict is invariant under reordering of the
enum-values maps of the pattern-schema. -/
theorem verifyActionSchema_ok_perm (rs1 rs2 : RuleSchema) (isWF : Bool)
    (hact : rs1.actionSchema = rs2.actionSchema)
    (hds : tasksStepDeepEqual rs1 = tasksStepDeepEqual rs2) :
    (verifyActionSchema rs1 isWF = .ok () ↔ verifyActionSchema rs2 isWF = .ok ()) := by
  rw [verifyActionSchema_ok_iff, verifyActionSchema_ok_iff, ← hact, ← hds]

/-- The success condition of `verifyRuleSchema`: non-empty class and
both sub-verifications succeed. -/
theorem verifyRuleSchema_ok_iff (rs : RuleSchema) (isWF : Bool) :
    verifyRuleSchema rs isWF = .ok () ↔
      ((rs.className.length == 0) = false ∧
       verifyPatternSchema rs isWF = .ok () ∧
       verifyActionSchema rs isWF = .ok ()) := by
  unfold verifyRuleSchema
  by_cases h1 : (rs.className.length == 0) = true
  · simp [h1]
  · rw [Bool.not_eq_true] at h1
    cases h2 : verifyPatternSchema rs isWF with
    | error e => simp [h1, h2]
    | ok u =>
      cases u
      cases h3 : verifyActionSchema rs isWF with
      | error e => simp [h1, h2, h3]
      | ok v =>
        cases v
        simp [h1, h2, h3]

/-- The schema verdict is invariant under reordering of the enum-values
maps: two representations of the same Go schema succeed or fail
together. -/
theorem verifyRuleSchema_ok_perm (rs1 rs2 : RuleSchema) (isWF : Bool)
    (hcn : rs1.className = rs2.className)
    (hact : rs1.actionSchema = rs2.actionSchema)
    (hps : List.Forall₂ attrValsPerm rs1.patternSchema rs2.patternSchema)
    (hnd : ∀ a ∈ rs1.patternSchema, (a.vals.map Prod.fst).Nodup) :
    (verifyRuleSchema rs1 isWF = .ok () ↔ verifyRuleSchema rs2 isWF = .ok ()) := by
  rw [verifyRuleSchema_ok_iff, verifyRuleSchema_ok_iff, hcn]
  exact and_congr Iff.rfl (and_congr
    (verifyPatternSchema_ok_perm rs1 rs2 isWF hps hnd)
    (verifyActionSchema_ok_perm rs1 rs2 isWF hact
      (tasksStepDeepEqual_perm rs1 rs2 hact hps hnd)))

/-- Whether a call target resolves is invariant under reordering of the
registry. -/
theorem doesRuleSetExist_ok_perm (reg1 reg2 : List (String × RuleSet))
    (hp : reg1.Perm reg2) (name : String) :
    (doesRuleSetExist reg1 name = .ok () ↔ doesRuleSetExist reg2 name = .ok ()) := by
  rw [doesRuleSetExist_ok_iff, doesRuleSetExist_ok_iff]
  apply or_congr Iff.rfl
  rw [List.find?_isSome, List.find?_isSome]
  constructor
  · rintro ⟨x, hx, hpx⟩
    exact ⟨x, hp.mem_iff.mp hx, hpx⟩
  · rintro ⟨x, hx, hpx⟩
    exact ⟨x, hp.mem_iff.mpr hx, hpx⟩

/-- The referential-check verdict is invariant under reordering of the
registry. -/
theorem doReferentialChecks_ok_perm (reg1 reg2 : List (String × RuleSet))
    (hp : reg1.Perm reg2) :
    (doReferentialChecks reg1 = .ok () ↔ doReferentialChecks reg2 = .ok ()) := by
  unfold doReferentialChecks
  rw [refLoop_ok_iff, refLoop_ok_iff]
  constructor
  · intro h p hpmem
    rw [callsLoop_ok_iff]
    intro r hr
    have h2 := h p (hp.mem_iff.mpr hpmem)
    rw [callsLoop_ok_iff] at h2
    obtain ⟨ha, hb⟩ := h2 r hr
    exact ⟨(doesRuleSetExist_ok_perm reg1 reg2 hp _).mp ha,
           (doesRuleSetExist_ok_perm reg1 reg2 hp _).mp hb⟩
  · intro h p hpmem
    rw [callsLoop_ok_iff]
    intro r hr
    have h2 := h p (hp.mem_iff.mp hpmem)
    rw [callsLoop_ok_iff] at h2
    obtain ⟨ha, hb⟩ := h2 r hr
    exact ⟨(doesRuleSetExist_ok_perm reg1 reg2 hp _).mpr ha,
           (doesRuleSetExist_ok_perm reg1 reg2 hp _).mpr hb⟩

/-- The success condition of `verifyEntity` at the level of its
attribute loop. -/
theorem verifyEntity_ok_iff_aux (ruleSchemas : List RuleSchema) (e : Entity) :
    verifyEntity ruleSchemas e = .ok () ↔
      ∃ rs, getSchema ruleSchemas e.className = .ok rs ∧
        entityAttrsLoop rs e.attrs = .ok () ∧
        e.attrs.length = rs.patternSchema.length := by
  unfold verifyEntity
  cases hg : getSchema ruleSchemas e.className with
  | error err => simp
  | ok rs =>
    simp only []
    constructor
    · intro h
      cases hl : entityAttrsLoop rs e.attrs with
      | error e2 => exact absurd (by simp only [hl] at h; exact h) (by simp)
      | ok u =>
        cases u
        simp only [hl] at h
        refine ⟨rs, rfl, hl, ?_⟩
        by_cases hlen : e.attrs.length = rs.patternSchema.length
        · exact hlen
        · exfalso
          have hbne : (e.attrs.length != rs.patternSchema.length) = true := by
            simp [hlen]
          rw [hbne] at h
          exact absurd h (by simp)
    · rintro ⟨rs2, hrs2, hloop, hlen⟩
      injection hrs2 with he
      subst he
      simp only [hloop]
      simp [hlen]

/-- The entity verdict is invariant under reordering of the attribute
map. -/
theorem verifyEntity_ok_perm (schemas : List RuleSchema) (e1 e2 : Entity)
    (hcn : e1.className = e2.className) (hperm : e1.attrs.Perm e2.attrs) :
    (verifyEntity schemas e1 = .ok () ↔ verifyEntity schemas e2 = .ok ()) := by
  rw [verifyEntity_ok_iff_aux, verifyEntity_ok_iff_aux, hcn]
  constructor
  · rintro ⟨rs, hg, hloop, hlen⟩
    refine ⟨rs, hg, ?_, ?_⟩
    · rw [entityAttrsLoop_ok_iff] at hloop
      rw [entityAttrsLoop_ok_iff]
      intro p hp
      exact hloop p (hperm.mem_iff.mpr hp)
    · rw [← hperm.length_eq]
      exact hlen
  · rintro ⟨rs, hg, hloop, hlen⟩
    refine ⟨rs, hg, ?_, ?_⟩
    · rw [entityAttrsLoop_ok_iff] at hloop
      rw [entityAttrsLoop_ok_iff]
      intro p hp
      exact hloop p (hperm.mem_iff.mp hp)
    · rw [hperm.length_eq]
      exact hlen

/-- C1, counterexample: the claim says a workflow rule with two or more
`step` terms is rejected, but `verifyRulePatterns` only scans for the
presence of a `step` term — a workflow rule set whose rule carries two
`step` terms passes. -/
theorem C1_counterexample :
    twoStepRuleSet.rules = [twoStepRule] ∧
    (twoStepRule.rulePattern.filter (fun t => t.attrName == step)).length = 2 ∧
    verifyRulePatterns twoStepRuleSet wfSchema true = .ok () :=
  ⟨rfl, rfl, rfl⟩

/-- C1, amended: for every rule set passing `verifyRulePatterns` with
isWorkflow true, the pattern of every rule contains at least one term on
`step` (so a zero-`step` rule is rejected); rules with two or more
`step` terms are accepted, not rejected. -/
theorem C1_amended_step_presence (ruleSet : RuleSet) (schema : RuleSchema)
    (h : verifyRulePatterns ruleSet schema true = .ok ()) :
    ∀ r ∈ ruleSet.rules, r.rulePattern.any (fun t => t.attrName == step) = true := by
  intro r hr
  exact checkRulePattern_ok_step schema ruleSet.setName r
    (patternsLoop_ok schema ruleSet.setName true ruleSet.rules h r hr)

/-- C1, witness: the amended theorem applied to a concrete accepted
workflow rule set. -/
theorem C1_witness :
    verifyRulePatterns goodWFRuleSet wfSchema true = .ok () ∧
    ∀ r ∈ goodWFRuleSet.rules, r.rulePattern.any (fun t => t.attrName == step) = true :=
  ⟨rfl, C1_amended_step_presence goodWFRuleSet wfSchema rfl⟩

/-- C2, counterexample: the claim says a `done` entry with any value
suppresses the neither-nextstep-nor-done error, but a workflow rule
whose properties bind `done` to the string `false` (and no `nextstep`)
is still rejected with that error. -/
theorem C2_counterexample :
    (doneFalseRule.ruleActions.properties.any (fun p => p.1 == done)) = true ∧
    doneFalseRuleSet.rules = [doneFalseRule] ∧
    verifyRuleActions doneFalseRuleSet wfSchema true =
      .error ("rule found with neither \x27nextstep\x27 nor \x27done\x27 in ruleset rs2") :=
  ⟨rfl, rfl, rfl⟩

/-- C2, amended: for a single-rule rule set whose rule passes the task,
property and return/exit checks, `verifyRuleActions` with isWorkflow
true reports the neither-nextstep-nor-done error exactly when the properties of the rule
contain no `nextstep` entry and no `done` entry whose value
is the string `true`; a `done` entry with any other value does not
suppress the error. -/
theorem C2_amended_neither_iff (schema : RuleSchema) (rs : RuleSet) (r : Rule)
    (hr : rs.rules = [r])
    (htasks : firstNotIn r.ruleActions.tasks schema.actionSchema.tasks = none)
    (hprops : firstNotIn (r.ruleActions.properties.map Prod.fst)
        schema.actionSchema.properties = none)
    (hre : (r.ruleActions.willReturn && r.ruleActions.willExit) = false) :
    (verifyRuleActions rs schema true =
        .error ("rule found with neither \x27nextstep\x27 nor \x27done\x27 in ruleset " ++ rs.setName))
      ↔ ((r.ruleActions.properties.any (fun p => p.1 == nextStep)) = false ∧
         (r.ruleActions.properties.any (fun p => p.1 == done && p.2 == trueStr)) = false) := by
  unfold verifyRuleActions
  rw [hr]
  unfold actionsLoop
  rw [checkRuleActions_wf schema rs.setName r htasks hprops hre]
  cases hc : checkWFActions rs.setName r with
  | error e =>
    simp only []
    rw [← hc]
    exact checkWFActions_neither_any_iff rs.setName r
  | ok u =>
    cases u
    simp only [actionsLoop]
    constructor
    · intro h
      exact absurd h (by simp)
    · rintro ⟨h1, h2⟩
      have hmm := (checkWFActions_neither_any_iff rs.setName r).mpr ⟨h1, h2⟩
      rw [hc] at hmm
      exact absurd hmm (by simp)

/-- C2, witness: the amended theorem applied to the `done=false` rule
set, yielding the neither error concretely. -/
theorem C2_witness :
    verifyRuleActions doneFalseRuleSet wfSchema true =
      .error ("rule found with neither \x27nextstep\x27 nor \x27done\x27 in ruleset " ++ "rs2") :=
  (C2_amended_neither_iff wfSchema doneFalseRuleSet doneFalseRule rfl rfl rfl rfl).mpr
    ⟨rfl, rfl⟩

/-- C3, counterexample: the claim says any workflow schema whose task
set plus START agrees in membership with the legal `step` values passes
the cross-check, but `falseEntrySchema` — whose truthy memberships agree
at every key of either map — is rejected, because `reflect.DeepEqual`
also compares the explicit `false` binding of the key `extra`. -/
theorem C3_counterexample :
    (((getTasksMapForWF falseEntrySchema.actionSchema.tasks).map Prod.fst ++
      ([("START", true), ("extra", false)] : List (String × Bool)).map Prod.fst).all
        (fun k => mapGet (getTasksMapForWF falseEntrySchema.actionSchema.tasks) k ==
                  mapGet [("START", true), ("extra", false)] k)) = true ∧
    getStepAttrVals falseEntrySchema = some [("START", true), ("extra", false)] ∧
    verifyRuleSchema falseEntrySchema true =
      .error ("action-schema tasks for order are not the same as valid values for \x27step\x27 in pattern-schema") :=
  ⟨rfl, rfl, rfl⟩

/-- C3, amended: a workflow schema passes `verifyRuleSchema` only if the
`step` attribute exists and its vals map is pointwise equal, as a
key-to-boolean map with presence, to the map binding each declared task
and START to true; agreement of truthy membership alone does not
suffice. -/
theorem C3_amended_deep_equality (rs : RuleSchema)
    (h : verifyRuleSchema rs true = .ok ()) :
    ∃ vals, getStepAttrVals rs = some vals ∧
      ∀ k, lookupB (getTasksMapForWF rs.actionSchema.tasks) k = lookupB vals k := by
  have hd : tasksStepDeepEqual rs = true :=
    verifyActionSchema_ok_deepEqual rs (verifyRuleSchema_ok_action rs true h)
  unfold tasksStepDeepEqual at hd
  cases hv : getStepAttrVals rs with
  | none =>
    simp only [hv] at hd
    exact absurd hd (by simp)
  | some vals =>
    simp only [hv] at hd
    exact ⟨vals, rfl, fun k => lookupB_eq_of_deepEqual _ _ hd k⟩

/-- C3, witness: the amended theorem applied to the accepted workflow
schema of spec scenario 1. -/
theorem C3_witness :
    ∃ vals, getStepAttrVals wfSchema = some vals ∧
      ∀ k, lookupB (getTasksMapForWF wfSchema.actionSchema.tasks) k = lookupB vals k :=
  C3_amended_deep_equality wfSchema rfl

/-- C4, counterexample: the claim says any workflow rule whose
properties set `nextstep` must have the value among its tasks, but a
rule binding `nextstep` to the empty string is accepted by
`verifyRuleActions` although the empty string is not among its tasks:
`getNextStep` returns the empty string and the length guard skips the
membership check. -/
theorem C4_counterexample :
    (emptyNextStepRule.ruleActions.properties.any (fun p => p.1 == nextStep)) = true ∧
    getNextStep emptyNextStepRule.ruleActions.properties = "" ∧
    isStringInArray "" emptyNextStepRule.ruleActions.tasks = false ∧
    verifyRuleActions emptyNextStepRuleSet wfSchema true = .ok () :=
  ⟨rfl, rfl, rfl, rfl⟩

/-- C4, amended: for every rule set accepted by `verifyRuleActions` with
isWorkflow true, every rule whose `nextstep` value is non-empty has that
value among its own tasks; a `nextstep` bound to the empty string
escapes the check. -/
theorem C4_amended_nextstep_nonempty (ruleSet : RuleSet) (schema : RuleSchema)
    (h : verifyRuleActions ruleSet schema true = .ok ()) :
    ∀ r ∈ ruleSet.rules, getNextStep r.ruleActions.properties ≠ "" →
      isStringInArray (getNextStep r.ruleActions.properties) r.ruleActions.tasks = true := by
  intro r hr hne
  exact checkWFActions_ok_nextstep ruleSet.setName r
    (checkRuleActions_ok_wf schema ruleSet.setName r
      (actionsLoop_ok schema ruleSet.setName true ruleSet.rules h r hr)) hne

/-- C4, witness: the amended theorem applied to a concrete accepted
workflow rule set whose rule sets `nextstep` to one of its tasks. -/
theorem C4_witness :
    verifyRuleActions goodWFRuleSet wfSchema true = .ok () ∧
    ∀ r ∈ goodWFRuleSet.rules, getNextStep r.ruleActions.properties ≠ "" →
      isStringInArray (getNextStep r.ruleActions.properties) r.ruleActions.tasks = true :=
  ⟨rfl, C4_amended_nextstep_nonempty goodWFRuleSet wfSchema rfl⟩

/-- C5: `verifyEntity` succeeds exactly when a schema exists for the class
of the entity, every present attribute is declared with a value
converting to its declared type, and the attribute count equals the
attribute count of the pattern-schema — so partial entities and entities with
extra attributes are both rejected. -/
theorem C5_verifyEntity_ok_iff (ruleSchemas : List RuleSchema) (e : Entity) :
    verifyEntity ruleSchemas e = .ok () ↔
      ∃ rs, getSchema ruleSchemas e.className = .ok rs ∧
        (∀ p ∈ e.attrs, getType rs p.1 ≠ "" ∧
          convertEntityAttrVal p.2 (getType rs p.1) = .ok p.2) ∧
        e.attrs.length = rs.patternSchema.length := by
  unfold verifyEntity
  cases hg : getSchema ruleSchemas e.className with
  | error err => simp
  | ok rs =>
    simp only []
    constructor
    · intro h
      cases hl : entityAttrsLoop rs e.attrs with
      | error e2 => exact absurd (by simp only [hl] at h; exact h) (by simp)
      | ok u =>
        cases u
        simp only [hl] at h
        refine ⟨rs, rfl, (entityAttrsLoop_ok_iff rs e.attrs).mp hl, ?_⟩
        by_cases hlen : e.attrs.length = rs.patternSchema.length
        · exact hlen
        · exfalso
          have hbne : (e.attrs.length != rs.patternSchema.length) = true := by
            simp [hlen]
          rw [hbne] at h
          exact absurd h (by simp)
    · rintro ⟨rs2, hrs2, hall, hlen⟩
      injection hrs2 with he
      subst he
      simp only [(entityAttrsLoop_ok_iff rs e.attrs).mpr hall]
      simp [hlen]

/-- C5, witness: the characterization applied to a complete entity of
the workflow schema. -/
theorem C5_witness :
    ∃ rs, getSchema [wfSchema] goodEntity.className = .ok rs ∧
      (∀ p ∈ goodEntity.attrs, getType rs p.1 ≠ "" ∧
        convertEntityAttrVal p.2 (getType rs p.1) = .ok p.2) ∧
      goodEntity.attrs.length = rs.patternSchema.length :=
  (C5_verifyEntity_ok_iff [wfSchema] goodEntity).mp rfl

/-- C6: `doReferentialChecks` succeeds exactly when, for every rule of
every registered rule set, each of `thenCall` and `elseCall` is empty or
resolves in the registry by exact name; and on the spec scenario — a
registry holding only R1 whose rule calls the absent R2 — it aborts with
the error naming the missing rule set. -/
theorem C6_referential_checks (reg : List (String × RuleSet)) :
    (doReferentialChecks reg = .ok () ↔
      ∀ p ∈ reg, ∀ r ∈ p.2.rules,
        (r.ruleActions.thenCall = "" ∨
          (reg.find? (fun q => q.1 == r.ruleActions.thenCall)).isSome = true) ∧
        (r.ruleActions.elseCall = "" ∨
          (reg.find? (fun q => q.1 == r.ruleActions.elseCall)).isSome = true)) ∧
    doReferentialChecks regWithR1 = .error ("ruleset R2 does not exist") := by
  constructor
  · unfold doReferentialChecks
    rw [refLoop_ok_iff]
    simp only [callsLoop_ok_iff, doesRuleSetExist_ok_iff]
  · rfl

/-- C6, witness: the characterization applied to the empty registry,
which vacuously passes. -/
theorem C6_witness : doReferentialChecks ([] : List (String × RuleSet)) = .ok () :=
  ((C6_referential_checks []).1).mpr (by simp)

/-- C7: a pattern term whose attribute name is absent from the
pattern-schema is rejected with the attribute-does-not-exist error
unless the name is a declared task, in which case the term is accepted
exactly when its literal is of type bool (a tag test) and its operator
is recognized. -/
theorem C7_tag_term_checks (schema : RuleSchema) (t : RuleTerm)
    (habs : ∀ a ∈ schema.patternSchema, a.name ≠ t.attrName) :
    (isStringInArray t.attrName schema.actionSchema.tasks = false →
      checkTerm schema t = .error ("attribute does not exist in schema: " ++ t.attrName)) ∧
    (isStringInArray t.attrName schema.actionSchema.tasks = true →
      (checkTerm schema t = .ok () ↔
        (verifyType t.attrVal typeBool = true ∧ validOps t.op = true))) := by
  have hg : getType schema t.attrName = "" := by
    unfold getType
    have hf : schema.patternSchema.find? (fun a => a.name == t.attrName) = none := by
      rw [List.find?_eq_none]
      intro a ha
      simp only [beq_iff_eq]
      exact habs a ha
    rw [hf]
  constructor
  · intro hin
    unfold checkTerm resolvedType
    simp only [hg, hin]
    simp
  · intro hin
    unfold checkTerm resolvedType
    simp only [hg, hin]
    by_cases h1 : verifyType t.attrVal typeBool = true
    · by_cases h2 : validOps t.op = true
      · simp [h1, h2]
      · rw [Bool.not_eq_true] at h2
        simp [h1, h2]
    · rw [Bool.not_eq_true] at h1
      simp [h1]

/-- C7, witness: the tag-term characterization applied to a bool-valued
term on the declared task `approve`, which is accepted. -/
theorem C7_witness : checkTerm wfSchema tagTerm = .ok () :=
  ((C7_tag_term_checks wfSchema tagTerm (by decide)).2 rfl).mpr ⟨rfl, rfl⟩

/-- C8: `verifyRuleSchema` fails fast in a fixed order — an empty class
name yields the class-is-empty error regardless of any other violation,
and for a non-empty class any pattern-schema error is returned as is,
before the action-schema is consulted. -/
theorem C8_fail_fast_order (rs : RuleSchema) (isWF : Bool) :
    (rs.className = "" → verifyRuleSchema rs isWF = .error ("schema class is empty string")) ∧
    (rs.className ≠ "" → ∀ e, verifyPatternSchema rs isWF = .error e →
      verifyRuleSchema rs isWF = .error e) := by
  constructor
  · intro h
    unfold verifyRuleSchema
    rw [h]
    simp
  · intro h e hp
    unfold verifyRuleSchema
    have hlen : (rs.className.length == 0) = false := by
      rw [beq_eq_false_iff_ne]
      intro hc
      exact h ((string_length_eq_zero rs.className).mp hc)
    rw [hlen, hp]
    simp

/-- C8, witness: the fail-fast theorem applied to a schema with an empty
class (and other violations), and to a schema with a non-empty class and
an empty pattern-schema. -/
theorem C8_witness :
    verifyRuleSchema emptyClassSchema true = .error ("schema class is empty string") ∧
    verifyRuleSchema emptyPatternSchemaFixture true =
      .error ("pattern-schema for c is empty") :=
  ⟨(C8_fail_fast_order emptyClassSchema true).1 rfl,
   (C8_fail_fast_order emptyPatternSchemaFixture true).2 (by decide) _ rfl⟩

/-- C9, counterexample: the claim says two calls return identical
(ok, error) results on the same input, but the reported error from a map
holding several violations depends on the map iteration order, which Go
randomizes per call: `schemaEnumXY` and `schemaEnumYX` carry the same
bindings (a permutation — the same Go map, met in the two orders two
runs can produce) yet `verifyRuleSchema` names a different offending
enum value for each, so two calls on that one schema need not return
the same error. -/
theorem C9_counterexample :
    ([("X", true), ("Y", true)] : List (String × Bool)).Perm [("Y", true), ("X", true)] ∧
    verifyRuleSchema schemaEnumXY false = .error ("enum value X is not a valid CruxID") ∧
    verifyRuleSchema schemaEnumYX false = .error ("enum value Y is not a valid CruxID") ∧
    ("enum value X is not a valid CruxID" : String) ≠ "enum value Y is not a valid CruxID" :=
  ⟨by decide, rfl, rfl, by decide⟩

/-- C9, amended: verification is stateless — the verifiers mutate
nothing and, with the registries passed explicitly, re-running any of
them on the same input yields the same result — and the ok-versus-error
verdict is independent of the randomized map iteration order: permuting
the enum-values maps of a schema (unique keys), the rule-set registry,
or the attribute map of an entity never changes whether verification
succeeds; only the identity of the reported error value may differ
between two calls. -/
theorem C9_amended_order_invariance :
    (∀ (schemas : List RuleSchema) (reg : List (String × RuleSet)) (rs : RuleSchema)
        (rset : RuleSet) (e : Entity) (isWF : Bool),
      verifyRuleSchema rs isWF = verifyRuleSchema rs isWF ∧
      verifyRuleSet schemas rset isWF = verifyRuleSet schemas rset isWF ∧
      doReferentialChecks reg = doReferentialChecks reg ∧
      verifyEntity schemas e = verifyEntity schemas e) ∧
    (∀ (rs1 rs2 : RuleSchema) (isWF : Bool),
      rs1.className = rs2.className →
      rs1.actionSchema = rs2.actionSchema →
      List.Forall₂ attrValsPerm rs1.patternSchema rs2.patternSchema →
      (∀ a ∈ rs1.patternSchema, (a.vals.map Prod.fst).Nodup) →
      (verifyRuleSchema rs1 isWF = .ok () ↔ verifyRuleSchema rs2 isWF = .ok ())) ∧
    (∀ (reg1 reg2 : List (String × RuleSet)), reg1.Perm reg2 →
      (doReferentialChecks reg1 = .ok () ↔ doReferentialChecks reg2 = .ok ())) ∧
    (∀ (schemas : List RuleSchema) (e1 e2 : Entity),
      e1.className = e2.className → e1.attrs.Perm e2.attrs →
      (verifyEntity schemas e1 = .ok () ↔ verifyEntity schemas e2 = .ok ())) :=
  ⟨fun _ _ _ _ _ _ => ⟨rfl, rfl, rfl, rfl⟩,
   fun rs1 rs2 isWF hcn hact hps hnd => verifyRuleSchema_ok_perm rs1 rs2 isWF hcn hact hps hnd,
   fun reg1 reg2 hp => doReferentialChecks_ok_perm reg1 reg2 hp,
   fun schemas e1 e2 hcn hperm => verifyEntity_ok_perm schemas e1 e2 hcn hperm⟩

/-- C9, witness: the verdict-invariance parts applied to concrete
reorderings — the two-orderings schema of the counterexample, a
two-entry registry, and a two-attribute entity. -/
theorem C9_witness :
    (List.Forall₂ attrValsPerm schemaEnumXY.patternSchema schemaEnumYX.patternSchema ∧
     (∀ a ∈ schemaEnumXY.patternSchema, (a.vals.map Prod.fst).Nodup) ∧
     regPairAB.Perm regPairBA ∧ entityStepFirst.attrs.Perm entityStepLast.attrs) ∧
    ((verifyRuleSchema schemaEnumXY false = .ok ()) ↔
      (verifyRuleSchema schemaEnumYX false = .ok ())) ∧
    ((doReferentialChecks regPairAB = .ok ()) ↔ (doReferentialChecks regPairBA = .ok ())) ∧
    ((verifyEntity [wfSchema] entityStepFirst = .ok ()) ↔
      (verifyEntity [wfSchema] entityStepLast = .ok ())) :=
  ⟨⟨List.Forall₂.cons ⟨rfl, rfl, by decide⟩ List.Forall₂.nil, by decide, by decide, by decide⟩,
   C9_amended_order_invariance.2.1 schemaEnumXY schemaEnumYX false rfl rfl
     (List.Forall₂.cons ⟨rfl, rfl, by decide⟩ List.Forall₂.nil) (by decide),
   C9_amended_order_invariance.2.2.1 regPairAB regPairBA (by decide),
   C9_amended_order_invariance.2.2.2 [wfSchema] entityStepFirst entityStepLast rfl (by decide)⟩

/-- C10: a pattern-schema declaring the same attribute name twice is
accepted by `verifyRuleSchema`, and `getType` resolves the duplicated
name to the type of the first declaration (`int`), silently ignoring the
second (`str`). -/
theorem C10_duplicate_attr_names :
    (dupAttrSchema.patternSchema.map (fun a => a.name)) = ["a", "a"] ∧
    verifyRuleSchema dupAttrSchema false = .ok () ∧
    getType dupAttrSchema "a" = "int" ∧
    (dupAttrSchema.patternSchema.map (fun a => a.valType)) = ["int", "str"] :=
  ⟨rfl, rfl, rfl, rfl⟩

end Crux
